import Mathlib

/-!
Shallow embedding of the COVID-19 incidence widget pipeline (the
Scriptable widget script): key normalisation (`getLookupCodes`),
sequential data fetching with all-or-nothing failure (`getData`), JSON
cache persistence, staleness classification, trend classification
(`getTrendSymbol`), and the assembler's display-name resolution
(`makeWidget`). Numbers are modelled as rationals (the script only
compares, adds and subtracts finite decimal values); JavaScript NaN,
null and undefined are modelled explicitly where the script can
observe them.
-/

namespace Covid19

/-! ### JavaScript string primitives -/

/-- ASCII whitespace as recognised by the embeddings of
String.prototype.trim and Number.parseFloat (the widget's inputs are
ASCII; the additional Unicode space code points never occur). -/
def isWsChar (c : Char) : Bool :=
  c == ' ' || c == '\t' || c == '\n' || c == '\r' || c.toNat == 11 || c.toNat == 12

/-- JavaScript String.prototype.trim on the inputs the widget sees. -/
def jsTrim (s : String) : String :=
  String.mk (((s.data.dropWhile isWsChar).reverse.dropWhile isWsChar).reverse)

/-- Value of a list of decimal digit characters, most significant first. -/
def decDigitsVal (cs : List Char) : ℕ :=
  cs.foldl (fun a c => 10 * a + (c.toNat - 48)) 0

/-- JavaScript numbers as this script observes them: finite values (as
rationals), NaN (the result of parsing garbage), and null (what an
absent or NaN value reads back as after a JSON round trip — JSON has no
NaN, so JSON.stringify writes NaN as null). -/
inductive JSNum where
  | nan
  | jnull
  | num (q : ℚ)
deriving DecidableEq

/-- Exponent part of a decimal literal: optional sign then digits; none
when no digit follows (Number.parseFloat then leaves the marker
unconsumed and ignores it). -/
def parseExpPart (cs : List Char) : Option Int :=
  let sgn : Int := match cs with | '-' :: _ => -1 | _ => 1
  let rest : List Char := match cs with | '+' :: t => t | '-' :: t => t | t => t
  let ds := rest.takeWhile Char.isDigit
  if ds.isEmpty then none else some (sgn * (decDigitsVal ds : Int))

/-- JavaScript Number.parseFloat on a string: skip leading whitespace,
optional sign, decimal digits with optional fraction and exponent; NaN
when no digit is found. (The Infinity literal never occurs in the
widget's data and is not modelled.) -/
def parseFloatStr (s : String) : JSNum :=
  let cs := s.data.dropWhile isWsChar
  let sgn : ℚ := match cs with | '-' :: _ => -1 | _ => 1
  let cs1 : List Char := match cs with | '+' :: t => t | '-' :: t => t | t => t
  let intDs := cs1.takeWhile Char.isDigit
  let cs2 := cs1.dropWhile Char.isDigit
  let fracDs : List Char := match cs2 with | '.' :: t => t.takeWhile Char.isDigit | _ => []
  let cs3 : List Char := match cs2 with | '.' :: t => t.dropWhile Char.isDigit | t => t
  if intDs.isEmpty && fracDs.isEmpty then .nan
  else
    let mant : ℚ := (decDigitsVal intDs : ℚ) + (decDigitsVal fracDs : ℚ) / (10 : ℚ) ^ fracDs.length
    let expo : Int :=
      match cs3 with
      | c :: t => if c == 'e' || c == 'E' then (parseExpPart t).getD 0 else 0
      | [] => 0
    .num (sgn * mant * (10 : ℚ) ^ expo)

/-- `Number.parseFloat(resp.field)` where the field may be absent: an
absent field is undefined, which parseFloat coerces to the string
"undefined", yielding NaN. -/
def jsParseFloat : Option String → JSNum
  | none => .nan
  | some s => parseFloatStr s

/-! ### KeyNormalizer (`getLookupCodes`) -/

/-- Raw widget-parameter tokens: the pieces of the comma-split parameter
string, plus the messy test-fixture values (a number, null, a nested
array). -/
inductive RawVal where
  | str (s : String)
  | intg (n : Int)
  | null
  | arr (xs : List RawVal)

mutual

/-- JavaScript string coercion of a raw token, as in the template
literal of `toCodes`. -/
def rawToString : RawVal → String
  | .str s => s
  | .intg n => toString n
  | .null => "null"
  | .arr xs => rawJoin xs

/-- Array.prototype.toString: elements joined with commas, with null
elements rendered as the empty string. -/
def rawJoin : List RawVal → String
  | [] => ""
  | [v] => rawElem v
  | v :: vs => rawElem v ++ "," ++ rawJoin vs

def rawElem : RawVal → String
  | .str s => s
  | .intg n => toString n
  | .null => ""
  | .arr xs => rawJoin xs

end

/-- True when the string is exactly five decimal digits (the regex
wanted by `toCodes` is anchored on both sides, so a match is the whole
string). -/
def isFiveDigits (s : String) : Bool :=
  s.length == 5 && s.data.all Char.isDigit

/-- The `toCodes` arrow function: coerce to string, trim, match the
five-digit regex; some gives the matched string (equal to the whole
trimmed form), none models the null returned when there is no match. -/
def toCodes (v : RawVal) : Option String :=
  let t := jsTrim (rawToString v)
  if isFiveDigits t then some t else none

/-- One match-array result of `toCodes`. String.prototype.match
allocates a fresh array on every call and Array.prototype.includes
compares objects by reference (SameValueZero), so each result carries
its allocation index; structural equality on this type then coincides
with JavaScript reference equality between the match arrays. -/
structure MatchRes where
  matched : String
  oid : Nat
deriving DecidableEq

/-- `codes.map(toCodes)`, tagging each freshly allocated match array
with its position. -/
def mapToCodes : Nat → List RawVal → List (Option MatchRes)
  | _, [] => []
  | i, v :: vs => (toCodes v).map (fun s => ⟨s, i⟩) :: mapToCodes (i + 1) vs

/-- The `unique` arrow function: keep the element at idx when idx === 0
or ary.slice(0, idx - 1) — the slice stops short of index idx - 1 —
does not contain it; `ary` is the array filter was called on. -/
def uniqueKeep (ary : List MatchRes) (idx : Nat) (val : MatchRes) : Bool :=
  idx == 0 || !((ary.take (idx - 1)).contains val)

/-- `.filter(unique)` with its three-argument callback. -/
def jsFilterUniqueFrom (ary : List MatchRes) : Nat → List MatchRes → List MatchRes
  | _, [] => []
  | i, v :: vs =>
      if uniqueKeep ary i v then v :: jsFilterUniqueFrom ary (i + 1) vs
      else jsFilterUniqueFrom ary (i + 1) vs

/-- Body of `getLookupCodes` on an explicit token list:
codes.map(toCodes).filter(notEmpty).filter(unique), where notEmpty
drops the null entries of unmatched tokens. -/
def getLookupCodes (raw : List RawVal) : List MatchRes :=
  let mapped := (mapToCodes 0 raw).reduceOption
  jsFilterUniqueFrom mapped 0 mapped

/-- The script's intentionally messy `testData` fixture. -/
def testData : List RawVal :=
  [.str " 50937", .str "51063", .null, .arr [.intg 1], .str "foo", .intg 51429, .str "99999"]

/-! ### DataFetcher (`getData`) -/

/-- The JSON body of one per-key response, with the fields the script
reads; a field may be absent (undefined). Per the remote contract the
metric fields arrive as text and are parsed with Number.parseFloat. -/
structure Response where
  cityName : Option String
  districtName : Option String
  lockdownIndex : Option String
  lockdownIndexPrevious2 : Option String
  dataSource : Option String
deriving DecidableEq

/-- The lookup URL built for a code. -/
def lookupURL (code : String) : String :=
  "https://covid.9digits.de/lockdown/" ++ code

/-- One IncidenceInfo record as `getData` builds it. `errorMessage` is
never set by this script's fetcher (the render loop still reads it, for
cached documents that might carry one), so `mkRecord` leaves it none. -/
structure IncidenceInfo where
  code : String
  place : Option String
  district : Option String
  incidence : JSNum
  previousIncidence : JSNum
  credit : Option String
  url : String
  errorMessage : Option String
deriving DecidableEq

/-- The record literal `getData` pushes for one successful response. -/
def mkRecord (code : String) (resp : Response) : IncidenceInfo :=
  { code := code
    place := resp.cityName
    district := resp.districtName
    incidence := jsParseFloat resp.lockdownIndex
    previousIncidence := jsParseFloat resp.lockdownIndexPrevious2
    credit := resp.dataSource
    url := lookupURL code
    errorMessage := none }

/-- The fetch loop of `getData` with its `responses` accumulator: each
request either yields a response body (some) or throws — transport
error, non-2xx, or malformed body (none); the catch block returns the
empty array at once, discarding everything accumulated so far. -/
def getDataLoop (fetch : String → Option Response) :
    List String → List IncidenceInfo → List IncidenceInfo
  | [], acc => acc
  | c :: cs, acc =>
      match fetch c with
      | none => []
      | some resp => getDataLoop fetch cs (acc ++ [mkRecord c resp])

/-- `getData`: look up the incidence data for the provided codes,
sequentially; the whole batch collapses to the empty array on the first
failure, and no exception escapes (the model is a total function). -/
def getData (fetch : String → Option Response) (codes : List String) : List IncidenceInfo :=
  getDataLoop fetch codes []

/-! ### The cache document (`JSON.stringify` / `JSON.parse`) -/

/-- JSON values, as far as the cache document needs them. -/
inductive Json where
  | null
  | num (q : ℚ)
  | str (s : String)
  | arr (xs : List Json)
  | obj (kvs : List (String × Json))

/-- JSON.stringify of a JavaScript number: NaN (like null) serialises
as the JSON literal null; a finite value as itself. -/
def jsonOfJSNum : JSNum → Json
  | .nan => .null
  | .jnull => .null
  | .num q => .num q

/-- An optional string property: JSON.stringify drops a key whose value
is undefined, so an absent field contributes no key at all. -/
def optField (k : String) : Option String → List (String × Json)
  | none => []
  | some s => [(k, .str s)]

/-- JSON.stringify of one record, keys in the order the record literal
declares them. -/
def recordToJson (r : IncidenceInfo) : Json :=
  .obj ([("code", .str r.code)]
    ++ optField "place" r.place
    ++ optField "district" r.district
    ++ [("incidence", jsonOfJSNum r.incidence),
        ("previousIncidence", jsonOfJSNum r.previousIncidence)]
    ++ optField "credit" r.credit
    ++ [("url", .str r.url)]
    ++ optField "errorMessage" r.errorMessage)

/-- The durable cache snapshot: `{ updated: <epoch milliseconds>, data:
<records> | null }`. The sentinel used when no file exists has
`data := none` (null). -/
structure Snapshot where
  updated : ℚ
  data : Option (List IncidenceInfo)
deriving DecidableEq

/-- JSON.stringify of the whole cache document `respData`. -/
def snapshotToJson (s : Snapshot) : Json :=
  .obj [("updated", .num s.updated),
        ("data", match s.data with
                 | none => .null
                 | some rs => .arr (rs.map recordToJson))]

/-- Property lookup on a parsed JSON object. -/
def jlookup (kvs : List (String × Json)) (k : String) : Option Json :=
  (kvs.find? (fun kv => kv.1 == k)).map (fun kv => kv.2)

/-- Read a string-typed property as the script's field accesses do. -/
def asStr : Json → Option String
  | .str s => some s
  | _ => none

/-- Read an optional string property: an absent key reads back as
undefined (none); a present key must hold a string. -/
def parseOptStr (kvs : List (String × Json)) (k : String) : Option (Option String) :=
  match jlookup kvs k with
  | none => some none
  | some (.str s) => some (some s)
  | some _ => none

/-- Read a numeric record field back: null parses to the null number,
a number to itself. -/
def parseNumField (kvs : List (String × Json)) (k : String) : Option JSNum :=
  match jlookup kvs k with
  | some .null => some .jnull
  | some (.num q) => some (.num q)
  | _ => none

/-- JSON.parse of one cached record, shaped by the fields the script
reads off it. -/
def parseRecord : Json → Option IncidenceInfo
  | .obj kvs => do
      let code ← (jlookup kvs "code").bind asStr
      let place ← parseOptStr kvs "place"
      let district ← parseOptStr kvs "district"
      let incidence ← parseNumField kvs "incidence"
      let previousIncidence ← parseNumField kvs "previousIncidence"
      let credit ← parseOptStr kvs "credit"
      let url ← (jlookup kvs "url").bind asStr
      let errorMessage ← parseOptStr kvs "errorMessage"
      pure ⟨code, place, district, incidence, previousIncidence, credit, url, errorMessage⟩
  | _ => none

/-- JSON.parse of the records array, element by element. -/
def parseRecords : List Json → Option (List IncidenceInfo)
  | [] => some []
  | j :: js => do
      let r ← parseRecord j
      let rest ← parseRecords js
      pure (r :: rest)

/-- JSON.parse of the cache document read from disk. -/
def parseSnapshot : Json → Option Snapshot
  | .obj kvs => do
      let u ← match jlookup kvs "updated" with
              | some (.num q) => some q
              | _ => none
      let d ← match jlookup kvs "data" with
              | some .null => some none
              | some (.arr xs) => (parseRecords xs).map some
              | _ => none
      pure ⟨u, d⟩
  | _ => none

/-- The value stored under key k in the JSON serialisation of a
record. -/
def recordField (r : IncidenceInfo) (k : String) : Option Json :=
  match recordToJson r with
  | .obj kvs => jlookup kvs k
  | _ => none

/-- A JavaScript number JSON can represent faithfully: anything but
NaN (JSON.stringify turns NaN into null, so NaN does not survive a
round trip). -/
def numOk : JSNum → Bool
  | .nan => false
  | _ => true

/-- A record whose numeric fields JSON preserves exactly. -/
def recordOk (r : IncidenceInfo) : Bool :=
  numOk r.incidence && numOk r.previousIncidence

/-- A well-formed snapshot per the durable storage format: every
record field is a JSON value (in particular no NaN), so the document
round-trips byte-exactly. -/
def snapshotOk (s : Snapshot) : Bool :=
  match s.data with
  | none => true
  | some rs => rs.all recordOk

/-! ### CacheStore -/

/-- The durable cache slot: none when the file does not exist, some j
when it holds the JSON document j (the file is only ever written with
JSON.stringify output, so its bytes and its JSON tree determine each
other). -/
def CacheState : Type := Option Json

/-- `fm.writeString(cache, JSON.stringify(snapshot))`: replaces the
whole slot. -/
def cacheWrite (_pre : CacheState) (s : Snapshot) : CacheState :=
  some (snapshotToJson s)

/-- The read at lines 249–251: if the file exists, JSON.parse its
contents; else the sentinel `{ updated: Date.now(), data: null }`. The
parse-failure default is unreachable for any state this script writes
(the script is the file's only writer). -/
def cacheRead (now : ℚ) : CacheState → Snapshot
  | none => ⟨now, none⟩
  | some j => (parseSnapshot j).getD ⟨now, none⟩

/-! ### StalenessClassifier (the update-line warning, lines 264–282) -/

/-- The three staleness buckets: fresh shows no warning symbol, warn
the exclamation mark, critical the xmark. -/
inductive Staleness where
  | fresh
  | warn
  | critical
deriving DecidableEq

/-- Milliseconds per hour, the script's `hours` constant. -/
def msPerHour : ℚ := 60 * 60 * 1000

/-- The warning cascade on `age = Date.now() - locData.updated`:
nothing when age is at most 24 h; past 24 h, the critical symbol when
age is past 72 h, else the warning symbol. -/
def classifyAge (age : ℚ) : Staleness :=
  if age > 24 * msPerHour then
    if age > 72 * msPerHour then .critical else .warn
  else .fresh

/-! ### TrendCalculator (`getTrendSymbol`) -/

/-- The trend buckets behind the five SF symbols the script picks
(plus unknown, the question mark used when the previous value reads
back null). -/
inductive TrendDirection where
  | strongUp
  | up
  | flat
  | down
  | strongDown
  | unknown
deriving DecidableEq

/-- The SF symbol name the script uses for each trend bucket. -/
def symbolName : TrendDirection → String
  | .strongUp => "arrow.up.circle"
  | .up => "arrow.up.right.circle"
  | .flat => "equal.circle"
  | .down => "arrow.down.right.circle"
  | .strongDown => "arrow.down.circle"
  | .unknown => "questionmark.circle"

/-- `getTrendSymbol(value, comparedTo)`, returning the SF symbol name
it selects: the branches test, in order, diff >= comparedTo,
diff >= 1, diff <= -1, diff <= -comparedTo, else the equal symbol. -/
def getTrendSymbol (value comparedTo : ℚ) : String :=
  let diff := value - comparedTo
  if diff ≥ comparedTo then symbolName .strongUp
  else if diff ≥ 1 then symbolName .up
  else if diff ≤ -1 then symbolName .down
  else if diff ≤ -comparedTo then symbolName .strongDown
  else symbolName .flat

/-- The trend cascade as the specification words it: delta >= previous
gives StrongUp; else delta >= 1 Up; else delta <= -1 Down; else
delta <= -previous StrongDown; else Flat. -/
def trendSpec (current previous : ℚ) : TrendDirection :=
  let delta := current - previous
  if delta ≥ previous then .strongUp
  else if delta ≥ 1 then .up
  else if delta ≤ -1 then .down
  else if delta ≤ -previous then .strongDown
  else .flat

/-! ### RenderModel assembler: display-name resolution (lines 297–303) -/

/-- JavaScript truthiness of a string-or-undefined value: undefined and
the empty string are falsy. -/
def strTruthy : Option String → Bool
  | none => false
  | some s => !s.isEmpty

/-- The JavaScript `a || b` on string-or-undefined values. -/
def jsOr (a b : Option String) : Option String :=
  if strTruthy a then a else b

/-- `l8n.string('msgCode', { code })` for the English string table
`'Code %\x7bcode:?\x7d'`: a non-null replacement value is substituted
into the placeholder; an undefined one leaves the placeholder to its
default text, giving `Code ?`. -/
def msgCode : Option String → String
  | some c => "Code " ++ c
  | none => "Code ?"

/-- Lines 301–302 of the render loop: the preferred name is the
district when the district-preference flag is set, else the place
falling back to the district; a falsy name falls back to the msgCode
placeholder built from `codes[idx]` — the entry of the current run's
normalized key list at the record's position, not the record's own
code field. -/
def resolveLocation (preferDistricts : Bool) (codes : List String) (idx : Nat)
    (rec : IncidenceInfo) : String :=
  let name := if preferDistricts then rec.district else jsOr rec.place rec.district
  if strTruthy name then name.getD "" else msgCode codes[idx]?

/-! ### The run pipeline of `makeWidget` (lines 228–292)

The data, cache and staleness flow of one widget run, with the layout
calls omitted: sanitise input, fetch, write the cache on a non-empty
batch, read the cache (or the sentinel) back, classify its age, and
decide between the no-data message and the record list. `Date.now()`
is modelled as the single instant `now` of the run. -/

/-- What the run puts on the widget, as far as the data flow decides
it: the missing-codes error text, or the update line with its
staleness bucket and whether the no-data message replaces the record
list. -/
inductive Display where
  | codeError
  | content (updated : ℚ) (staleness : Staleness) (noData : Bool)
deriving DecidableEq

/-- A run's observable outcome: the durable slot it leaves behind,
whether it wrote the slot, and what it displays. -/
structure RunOutcome where
  finalCache : CacheState
  wroteCache : Bool
  display : Display

/-- One `makeWidget` run over the data pipeline: lines 228–292. -/
def makeWidgetRun (fetch : String → Option Response) (now : ℚ)
    (preCache : CacheState) (raw : List RawVal) : RunOutcome :=
  let codes := getLookupCodes raw
  if codes.isEmpty then
    { finalCache := preCache, wroteCache := false, display := .codeError }
  else
    let responses := getData fetch (codes.map MatchRes.matched)
    let newCache := if responses.isEmpty then preCache
                    else cacheWrite preCache ⟨now, some responses⟩
    let locData := cacheRead now newCache
    let staleness := classifyAge (now - locData.updated)
    let noData := match locData.data with
                  | none => true
                  | some rs => rs.isEmpty
    { finalCache := newCache
      wroteCache := !responses.isEmpty
      display := .content locData.updated staleness noData }

/-- Display-name resolution as the amended claim C9 words it:
district name when the district-preference flag is set, else place
name falling back to district name; when no (truthy) name is
available, the msgCode placeholder built from the key at the record's
position in the current run's normalized key list — which may be
absent, and may differ from the record's own code field. -/
def resolveSpecName (preferDistricts : Bool) (posKey : Option String)
    (rec : IncidenceInfo) : String :=
  if preferDistricts then
    if strTruthy rec.district then rec.district.getD "" else msgCode posKey
  else if strTruthy rec.place then rec.place.getD ""
  else if strTruthy rec.district then rec.district.getD ""
  else msgCode posKey

/-! ### Fixtures used by witnesses and counterexamples -/

/-- A concrete record with a finite metric, a null previous metric
and an absent district, for the round-trip witness. -/
def recW : IncidenceInfo :=
  ⟨"50937", some "Koeln", none, .num 42, .jnull, some "Landkreis", lookupURL "50937", none⟩

/-- A concrete well-formed snapshot. -/
def snapW : Snapshot := ⟨1700000000000, some [recW]⟩

/-- A cached record carrying its own code 11111, with no name fields,
rendered against a current key list whose entry at its position is
22222. -/
def recOrphan : IncidenceInfo :=
  ⟨"11111", none, none, .jnull, .jnull, none, lookupURL "11111", none⟩

/-- A concrete per-key response whose metric fields do not parse. -/
def respC1 : Response :=
  ⟨some "Koeln", some "Rheinland", some "n/a", some "n/a", some "Landkreis"⟩

/-- A fetch oracle answering only the code 50937. -/
def fetchC1 : String → Option Response :=
  fun c => if c = "50937" then some respC1 else none

/-- A response whose current metric field holds unparseable text. -/
def respBad : Response := ⟨none, some "Berlin", some "unavailable", none, none⟩

/-- A fetch oracle answering only the code 12345, with `respBad`. -/
def fetchBad : String → Option Response :=
  fun c => if c = "12345" then some respBad else none

/-! ### Lemmas about the fetch loop -/

theorem getDataLoop_of_failure (fetch : String → Option Response) :
    ∀ (codes : List String) (acc : List IncidenceInfo),
      (∃ c ∈ codes, fetch c = none) → getDataLoop fetch codes acc = [] := by
  intro codes
  induction codes with
  | nil => intro acc h; simp at h
  | cons c cs ih =>
      intro acc h
      rcases h with ⟨x, hx, hfx⟩
      rcases List.mem_cons.mp hx with rfl | hx
      · simp [getDataLoop, hfx]
      · cases hf : fetch c with
        | none => simp [getDataLoop, hf]
        | some r => simpa [getDataLoop, hf] using ih _ ⟨x, hx, hfx⟩

theorem getDataLoop_acc (fetch : String → Option Response) :
    ∀ (codes : List String) (acc : List IncidenceInfo),
      (∀ c ∈ codes, (fetch c).isSome) →
      getDataLoop fetch codes acc = acc ++ getDataLoop fetch codes [] := by
  intro codes
  induction codes with
  | nil => intro acc _; simp [getDataLoop]
  | cons c cs ih =>
      intro acc h
      rcases Option.isSome_iff_exists.mp (h c (List.mem_cons_self c cs)) with ⟨r, hr⟩
      have hcs : ∀ x ∈ cs, (fetch x).isSome := fun x hx => h x (List.mem_cons_of_mem _ hx)
      simp only [getDataLoop, hr]
      rw [ih _ hcs, ih ([] ++ [mkRecord c r]) hcs]
      simp

theorem getData_of_failure (fetch : String → Option Response) (codes : List String)
    (h : ∃ c ∈ codes, fetch c = none) : getData fetch codes = [] :=
  getDataLoop_of_failure fetch codes [] h

theorem getData_success (fetch : String → Option Response) :
    ∀ codes : List String, (∀ c ∈ codes, (fetch c).isSome) →
      (getData fetch codes).length = codes.length ∧
      (∀ i : Nat, ∀ hi : i < codes.length, ∃ r, fetch codes[i] = some r ∧
        (getData fetch codes)[i]? = some (mkRecord codes[i] r)) := by
  intro codes
  induction codes with
  | nil => intro _; simp [getData, getDataLoop]
  | cons c cs ih =>
      intro h
      rcases Option.isSome_iff_exists.mp (h c (List.mem_cons_self c cs)) with ⟨r, hr⟩
      have hcs : ∀ x ∈ cs, (fetch x).isSome := fun x hx => h x (List.mem_cons_of_mem _ hx)
      have hstep : getData fetch (c :: cs) = mkRecord c r :: getData fetch cs := by
        show getDataLoop fetch (c :: cs) [] = mkRecord c r :: getDataLoop fetch cs []
        simp only [getDataLoop, hr]
        rw [getDataLoop_acc fetch cs ([] ++ [mkRecord c r]) hcs]
        simp
      rcases ih hcs with ⟨hlen, hidx⟩
      refine ⟨by simp [hstep, hlen], ?_⟩
      intro i hi
      cases i with
      | zero => exact ⟨r, by simpa using hr, by simp [hstep]⟩
      | succ j =>
          have hj : j < cs.length := by simpa using hi
          rcases hidx j hj with ⟨r2, hr2, hg⟩
          refine ⟨r2, by simpa using hr2, ?_⟩
          simpa [hstep] using hg

/-- C1: for a non-empty ordered list of lookup keys, if any single
per-key request fails (the oracle returns none: transport error,
non-2xx, malformed body), `getData` returns the empty list for the
whole batch (and, being a total function, lets no exception escape);
if all requests succeed it returns exactly one record per key, in
input order, each built from that key's response. -/
theorem getData_allOrNothing (fetch : String → Option Response) (codes : List String)
    (hne : codes ≠ []) :
    ((∃ c ∈ codes, fetch c = none) → getData fetch codes = []) ∧
    ((∀ c ∈ codes, (fetch c).isSome) →
      (getData fetch codes).length = codes.length ∧
      (∀ i : Nat, ∀ hi : i < codes.length, ∃ r, fetch codes[i] = some r ∧
        (getData fetch codes)[i]? = some (mkRecord codes[i] r))) :=
  ⟨getData_of_failure fetch codes, getData_success fetch codes⟩

/-- C1 witness: at the concrete one-key batch ["50937"] with the
oracle `fetchC1`, the hypotheses hold and the batch has exactly one
record. -/
theorem getData_allOrNothing_witness :
    (["50937"] ≠ ([] : List String)) ∧ (getData fetchC1 ["50937"]).length = 1 :=
  ⟨by decide,
    ((getData_allOrNothing fetchC1 ["50937"] (by decide)).2 (by decide)).1⟩

/-! ### Round trip of the cache document -/

theorem parseRecord_roundTrip (r : IncidenceInfo) (h : recordOk r = true) :
    parseRecord (recordToJson r) = some r := by
  obtain ⟨code, place, district, inc, prev, credit, url, em⟩ := r
  cases inc <;> cases prev <;> simp [recordOk, numOk] at h <;>
    cases place <;> cases district <;> cases credit <;> cases em <;> rfl

theorem parseRecords_roundTrip (rs : List IncidenceInfo) (h : rs.all recordOk = true) :
    parseRecords (rs.map recordToJson) = some rs := by
  induction rs with
  | nil => rfl
  | cons r rest ih =>
      simp only [List.all_cons, Bool.and_eq_true] at h
      simp [parseRecords, parseRecord_roundTrip r h.1, ih h.2]

theorem parseSnapshot_roundTrip (s : Snapshot) (h : snapshotOk s = true) :
    parseSnapshot (snapshotToJson s) = some s := by
  obtain ⟨u, d⟩ := s
  cases d with
  | none => rfl
  | some rs =>
      simp only [snapshotOk] at h
      simp [snapshotToJson, parseSnapshot, jlookup, parseRecords_roundTrip rs h]

/-- C3: writing a well-formed snapshot (its field values JSON
representable, its timestamp included) and reading the slot back
returns the snapshot unchanged — every record field value and the
timestamp are preserved exactly, whatever was in the slot before. -/
theorem cache_roundTrip (st : CacheState) (s : Snapshot) (now : ℚ)
    (h : snapshotOk s = true) : cacheRead now (cacheWrite st s) = s := by
  simp [cacheWrite, cacheRead, parseSnapshot_roundTrip s h]

/-- C3 witness: the concrete snapshot `snapW` is well-formed and
survives the write–read round trip unchanged. -/
theorem cache_roundTrip_witness :
    snapshotOk snapW = true ∧ cacheRead 0 (cacheWrite none snapW) = snapW :=
  ⟨by decide, cache_roundTrip none snapW 0 (by decide)⟩

/-! ### Staleness classification -/

theorem classifyAge_fresh_iff (age : ℚ) :
    classifyAge age = .fresh ↔ age ≤ 24 * msPerHour := by
  unfold classifyAge
  split_ifs with h1 h2
  · exact ⟨fun h => absurd h (by decide), fun h => absurd h1 (not_lt.mpr h)⟩
  · exact ⟨fun h => absurd h (by decide), fun h => absurd h1 (not_lt.mpr h)⟩
  · exact ⟨fun _ => not_lt.mp h1, fun _ => rfl⟩

theorem classifyAge_warn_iff (age : ℚ) :
    classifyAge age = .warn ↔ 24 * msPerHour < age ∧ age ≤ 72 * msPerHour := by
  unfold classifyAge
  split_ifs with h1 h2
  · exact ⟨fun h => absurd h (by decide), fun h => absurd h.2 (not_le.mpr h2)⟩
  · exact ⟨fun _ => ⟨h1, not_lt.mp h2⟩, fun _ => rfl⟩
  · exact ⟨fun h => absurd h (by decide), fun h => absurd h.1 h1⟩

theorem classifyAge_critical_iff (age : ℚ) :
    classifyAge age = .critical ↔ 72 * msPerHour < age := by
  unfold classifyAge
  split_ifs with h1 h2
  · exact ⟨fun _ => h2, fun _ => rfl⟩
  · exact ⟨fun h => absurd h (by decide), fun h => absurd h h2⟩
  · exact ⟨fun h => absurd h (by decide),
      fun h => absurd (lt_trans (by norm_num [msPerHour]) h) h1⟩

/-! ### Key normalisation evaluated (C5) -/

/-- C5: on the documented test fixture the normaliser keeps exactly
the four five-digit codes in order; but on the duplicate input
['50937','50937'] it keeps BOTH copies: the `unique` filter compares
fresh match-array objects by reference and skips the immediately
preceding slice element, so it never drops anything, contradicting
the function's own documentation ("Retrieve and deduplicate"). -/
theorem getLookupCodes_eval :
    (getLookupCodes testData).map MatchRes.matched = ["50937", "51063", "51429", "99999"] ∧
    (getLookupCodes [.str "50937", .str "50937"]).map MatchRes.matched = ["50937", "50937"] := by
  decide

/-! ### Trend classification (C6, C7) -/

/-- C6: with a previous value of zero the StrongUp branch
(diff >= comparedTo, i.e. diff >= 0) fires for every non-negative
delta, so (0, 0) is classified StrongUp — not Flat. -/
theorem trend_zero_previous_strongUp (v : ℚ) (hv : 0 ≤ v) :
    getTrendSymbol v 0 = symbolName .strongUp ∧
    getTrendSymbol 0 0 = symbolName .strongUp ∧
    symbolName TrendDirection.strongUp ≠ symbolName TrendDirection.flat := by
  refine ⟨?_, ?_, by decide⟩
  · simp only [getTrendSymbol]
    rw [if_pos (by linarith : v - 0 ≥ (0 : ℚ))]
  · simp only [getTrendSymbol]
    norm_num

/-- C6 witness: the hypothesis holds at v = 0, where the trend is the
StrongUp symbol. -/
theorem trend_zero_previous_strongUp_witness :
    (0 : ℚ) ≤ 0 ∧ getTrendSymbol 0 0 = symbolName .strongUp :=
  ⟨le_refl 0, (trend_zero_previous_strongUp 0 (le_refl 0)).1⟩

/-- C7 counterexample: (current 0, previous 5) is classified Down —
the diff <= -1 branch fires before the StrongDown branch is reached —
not StrongDown as the claim states. -/
theorem trend_zero_five_not_strongDown :
    getTrendSymbol 0 5 = symbolName TrendDirection.down ∧
    getTrendSymbol 0 5 ≠ symbolName TrendDirection.strongDown := by
  have h : getTrendSymbol 0 5 = symbolName TrendDirection.down := by
    simp only [getTrendSymbol]
    norm_num
  exact ⟨h, by rw [h]; decide⟩

/-- C7 amended: for a present previous value the classification
follows the cascade delta >= previous → StrongUp; else delta >= 1 →
Up; else delta <= -1 → Down; else delta <= -previous → StrongDown;
else Flat — and under that cascade (0, 5) lands on Down, since the
Down test precedes the StrongDown test. -/
theorem getTrendSymbol_follows_cascade (value comparedTo : ℚ) :
    getTrendSymbol value comparedTo = symbolName (trendSpec value comparedTo) ∧
    trendSpec 0 5 = TrendDirection.down := by
  constructor
  · simp only [getTrendSymbol, trendSpec]
    split_ifs <;> rfl
  · simp only [trendSpec]
    norm_num

/-! ### Unparseable numeric fields (C8) -/

theorem recordField_incidence (r : IncidenceInfo) :
    recordField r "incidence" = some (jsonOfJSNum r.incidence) := by
  obtain ⟨c, p, d, i, pr, cr, u, e⟩ := r
  cases p <;> cases d <;> rfl

theorem recordField_previous (r : IncidenceInfo) :
    recordField r "previousIncidence" = some (jsonOfJSNum r.previousIncidence) := by
  obtain ⟨c, p, d, i, pr, cr, u, e⟩ := r
  cases p <;> cases d <;> rfl

/-- C8 counterexample: a successful batch whose one response carries
unparseable metric text yields a record whose incidence is NaN — not
null — so the claim's "carries null" fails on the in-memory record
(only the serialised snapshot carries null, see the amended claim). -/
theorem unparseable_gives_nan_not_null :
    (getData fetchBad ["12345"]).map IncidenceInfo.incidence = [JSNum.nan] ∧
    JSNum.nan ≠ JSNum.jnull := by
  decide

/-- C8 amended: in a batch whose every request succeeds, an
unparseable numeric text field never invalidates the batch (one record
per key survives); the record carries NaN in that field, never a null
of its own, and the durable snapshot serialises that NaN as null, so
every cached record carries null there. -/
theorem jsParseFloat_ne_jnull (o : Option String) : jsParseFloat o ≠ .jnull := by
  cases o with
  | none => simp [jsParseFloat]
  | some s =>
      simp only [jsParseFloat, parseFloatStr]
      split_ifs <;> simp

theorem unparseable_numeric_fields (fetch : String → Option Response) (codes : List String)
    (h : ∀ c ∈ codes, (fetch c).isSome) :
    (getData fetch codes).length = codes.length ∧
    (∀ r ∈ getData fetch codes, r.incidence ≠ .jnull ∧ r.previousIncidence ≠ .jnull) ∧
    (∀ i : Nat, ∀ hi : i < codes.length, ∃ resp, fetch codes[i] = some resp ∧
      ∃ r, (getData fetch codes)[i]? = some r ∧
        r.incidence = jsParseFloat resp.lockdownIndex ∧
        r.previousIncidence = jsParseFloat resp.lockdownIndexPrevious2 ∧
        (jsParseFloat resp.lockdownIndex = .nan → recordField r "incidence" = some .null) ∧
        (jsParseFloat resp.lockdownIndexPrevious2 = .nan →
          recordField r "previousIncidence" = some .null)) := by
  rcases getData_success fetch codes h with ⟨hlen, hidx⟩
  refine ⟨hlen, ?_, ?_⟩
  · intro r hr
    rcases List.mem_iff_getElem?.mp hr with ⟨i, hg⟩
    have hi : i < codes.length := by
      rw [← hlen]
      exact (List.getElem?_eq_some_iff.mp hg).1
    rcases hidx i hi with ⟨resp, _, hg2⟩
    have hr2 : r = mkRecord codes[i] resp := Option.some.inj (hg.symm.trans hg2)
    subst hr2
    exact ⟨jsParseFloat_ne_jnull _, jsParseFloat_ne_jnull _⟩
  · intro i hi
    rcases hidx i hi with ⟨resp, hresp, hg⟩
    refine ⟨resp, hresp, mkRecord codes[i] resp, hg, rfl, rfl, ?_, ?_⟩
    · intro hnan
      rw [recordField_incidence]
      simp [mkRecord, hnan, jsonOfJSNum]
    · intro hnan
      rw [recordField_previous]
      simp [mkRecord, hnan, jsonOfJSNum]

/-- C8 witness: at the concrete batch ["12345"] with `fetchBad` the
hypotheses hold and the record count is preserved. -/
theorem unparseable_numeric_fields_witness :
    (getData fetchBad ["12345"]).length = 1 :=
  (unparseable_numeric_fields fetchBad ["12345"] (by decide)).1

/-- C4: the staleness bucket of `age = now - updatedAt` is fresh
exactly when age is at most 24 h, warn exactly between 24 h exclusive
and 72 h inclusive, critical exactly past 72 h; the boundaries land as
the spec states them, with one unit being one millisecond. -/
theorem classifyAge_spec (now updatedAt : ℚ) :
    (classifyAge (now - updatedAt) = .fresh ↔ now - updatedAt ≤ 24 * msPerHour) ∧
    (classifyAge (now - updatedAt) = .warn ↔
      (24 * msPerHour < now - updatedAt ∧ now - updatedAt ≤ 72 * msPerHour)) ∧
    (classifyAge (now - updatedAt) = .critical ↔ 72 * msPerHour < now - updatedAt) ∧
    classifyAge 0 = .fresh ∧
    classifyAge (24 * msPerHour) = .fresh ∧
    classifyAge (24 * msPerHour + 1) = .warn ∧
    classifyAge (72 * msPerHour) = .warn ∧
    classifyAge (72 * msPerHour + 1) = .critical := by
  refine ⟨classifyAge_fresh_iff _, classifyAge_warn_iff _, classifyAge_critical_iff _,
    ?_, ?_, ?_, ?_, ?_⟩
  · rw [classifyAge_fresh_iff]; norm_num [msPerHour]
  · rw [classifyAge_fresh_iff]
  · rw [classifyAge_warn_iff]; norm_num [msPerHour]
  · rw [classifyAge_warn_iff]; norm_num [msPerHour]
  · rw [classifyAge_critical_iff]; norm_num [msPerHour]

/-! ### Display-name resolution (C9) -/

/-- C9 counterexample: with no name available, the placeholder is
built from codes[idx] — the current run's key at the record's
position — and differs from the placeholder built from the record's
own code field, refuting the claim's "the code field carried in the
record itself". -/
theorem placeholder_uses_positional_code :
    resolveLocation false ["22222"] 0 recOrphan = "Code 22222" ∧
    resolveLocation false ["22222"] 0 recOrphan ≠ msgCode (some recOrphan.code) := by
  decide

/-- C9 amended: the resolution rule equals the spec-worded cascade
with the positional key codes[idx] in the placeholder role: district
name under the district-preference flag, else place falling back to
district, else the placeholder built from the key at the record's
position in the current run's key list. -/
theorem resolveLocation_spec (preferDistricts : Bool) (codes : List String) (idx : Nat)
    (rec : IncidenceInfo) :
    resolveLocation preferDistricts codes idx rec =
      resolveSpecName preferDistricts codes[idx]? rec := by
  obtain ⟨c, p, d, i, pr, cr, u, e⟩ := rec
  simp only [resolveLocation, resolveSpecName, jsOr]
  cases preferDistricts <;> cases p <;> cases d <;>
    simp [strTruthy] <;> split_ifs <;> simp_all [strTruthy, Option.getD]

/-! ### The cache-write discipline (C2) and the empty-cache run (C10) -/

/-- C2: the cache slot is written exactly when the fetch pass returns
a non-empty batch; any run that does not write — an empty batch, or
zero valid keys, where no fetch is attempted at all — leaves the
durable slot exactly as it was. -/
theorem cacheWrite_iff_nonEmptyBatch (fetch : String → Option Response) (now : ℚ)
    (pre : CacheState) (raw : List RawVal) :
    ((makeWidgetRun fetch now pre raw).wroteCache = true ↔
      getData fetch ((getLookupCodes raw).map MatchRes.matched) ≠ []) ∧
    ((makeWidgetRun fetch now pre raw).wroteCache = false →
      (makeWidgetRun fetch now pre raw).finalCache = pre) ∧
    (getLookupCodes raw = [] → (makeWidgetRun fetch now pre raw).finalCache = pre) := by
  by_cases hc : (getLookupCodes raw).isEmpty
  · have hnil : getLookupCodes raw = [] := by simpa [List.isEmpty_iff] using hc
    simp [makeWidgetRun, hc, hnil, getData, getDataLoop]
  · by_cases hr : (getData fetch ((getLookupCodes raw).map MatchRes.matched)).isEmpty
    · have hnil : getData fetch ((getLookupCodes raw).map MatchRes.matched) = [] := by
        simpa [List.isEmpty_iff] using hr
      simp [makeWidgetRun, hc, hr, hnil]
    · have hne : getData fetch ((getLookupCodes raw).map MatchRes.matched) ≠ [] := by
        simpa [List.isEmpty_iff] using hr
      simp [makeWidgetRun, hc, hr, hne]
      intro hnil
      exact absurd (by simpa [List.isEmpty_iff] using hnil) hc

/-- C10: with an empty durable slot (no snapshot ever written), a run
whose fetch is skipped shows the code error with no staleness line at
all, and a run whose fetch fails reads the sentinel — whose timestamp
is the current instant, so its age is zero and its bucket Fresh — and
shows the no-data state; an empty cache is never presented together
with a staleness warning. -/
theorem emptyCache_never_stale (fetch : String → Option Response) (now : ℚ)
    (raw : List RawVal) :
    (getLookupCodes raw = [] →
      makeWidgetRun fetch now none raw =
        ⟨none, false, .codeError⟩) ∧
    (getLookupCodes raw ≠ [] →
      getData fetch ((getLookupCodes raw).map MatchRes.matched) = [] →
      makeWidgetRun fetch now none raw =
        ⟨none, false, .content now .fresh true⟩ ∧
      classifyAge (now - now) = .fresh) := by
  constructor
  · intro hnil
    have hc : (getLookupCodes raw).isEmpty := by simp [hnil]
    simp [makeWidgetRun, hc]
  · intro hne hfail
    have hc : ¬ (getLookupCodes raw).isEmpty := by simpa [List.isEmpty_iff] using hne
    have hfresh : classifyAge (now - now) = .fresh := by
      rw [classifyAge_fresh_iff]
      norm_num [msPerHour]
    have hfresh0 : classifyAge 0 = .fresh := by
      rw [classifyAge_fresh_iff]
      norm_num [msPerHour]
    refine ⟨?_, hfresh⟩
    simp [makeWidgetRun, hc, hfail, cacheRead, hfresh, hfresh0]

end Covid19
